import Mathlib

/-!
Verification of the conversation-and-knowledge-base session model of the
RAG agent application.

The embedding mirrors the Python components:

* `components/conversation_manager.py` — per-user named chat sessions stored
  in a `chats` table (rows of username, chat_name, messages as a JSON array
  of `{type, content}` objects).  The Supabase client is modelled as a list
  of rows plus an explicit `fail : Bool` flag standing for "the underlying
  store raises on this call"; a Python `try/except` that swallows the
  exception is modelled by returning the corresponding fallback value, and
  an uncaught exception is modelled with `Except.error`.
* `components/vector_store.py` — document chunks stored in a `documents`
  table; each row keeps the chunk text and a metadata object (the embedding
  vector is opaque to every property considered here and is not modelled).
* `components/document_processor.py` — batch upload processing dispatching
  on the filename extension.
* `app.py` — the call sites wiring these together (retriever construction
  with the per-user filter, chat input handling).

Timestamp columns (`created_at` / `updated_at`) and the try-with-timestamp /
fallback-without-timestamp pattern only affect ordering metadata, never the
message or chunk payloads, and are not modelled.
-/

namespace Rag

/-- Chat message as held in memory by the application
(`langchain_core.messages.HumanMessage` / `AIMessage`): a role and a
content string. -/
inductive Message where
  | human (content : String)
  | ai (content : String)
deriving DecidableEq, Repr

/-- One element of the JSON `messages` array persisted in the `chats` table:
`{type: "human" | "ai", content: string}`. -/
structure MsgJson where
  type : String
  content : String
deriving DecidableEq, Repr

/-- One row of the `chats` table: `username`, `chat_name`, `messages`. -/
structure ChatRow where
  username : String
  chat_name : String
  messages : List MsgJson
deriving DecidableEq, Repr

/-- The `chats` table contents. -/
abbrev ChatDB := List ChatRow

/-- Row filter used by every conversation-store query:
`.eq("username", u).eq("chat_name", c)`. -/
def matchesChat (u c : String) (r : ChatRow) : Bool :=
  r.username == u && r.chat_name == c

/-- Decoding used by `load_history`:
`HumanMessage(content=msg['content']) if msg['type'] == 'human' else AIMessage(...)`. -/
def msgOfJson (m : MsgJson) : Message :=
  if m.type == "human" then .human m.content else .ai m.content

/-- Encoding used by `save_history`:
`{'type': 'human', ...} if isinstance(msg, HumanMessage) else {'type': 'ai', ...}`. -/
def jsonOfMsg : Message → MsgJson
  | .human c => ⟨"human", c⟩
  | .ai c => ⟨"ai", c⟩

/-- Model of `ConversationManager.load_history`: select the rows matching
`(username, chat_name)`; if any, decode the first row's `messages` array;
otherwise (or when the store raises — the exception is caught) return `[]`. -/
def load_history (fail : Bool) (db : ChatDB) (username chat_name : String) :
    List Message :=
  if fail then []
  else
    match db.filter (matchesChat username chat_name) with
    | [] => []
    | r :: _ => r.messages.map msgOfJson

/-- Supabase `upsert` keyed on `(username, chat_name)`: replace the matching
row(s) if present, otherwise append the new row. -/
def upsertRow (db : ChatDB) (row : ChatRow) : ChatDB :=
  if db.any (matchesChat row.username row.chat_name) then
    db.map (fun r => if matchesChat row.username row.chat_name r then row else r)
  else
    db ++ [row]

/-- Model of `ConversationManager.save_history`: encode the history to JSON and upsert
the row.  The whole body is wrapped in `try/except` that only prints, so the
caller-visible outcome (second component: the exception propagated to the
caller, `none` = returned normally) is `none` on success AND on store
failure; on failure the table is unchanged. -/
def save_history (fail : Bool) (db : ChatDB) (username chat_name : String)
    (history : List Message) : ChatDB × Option String :=
  let history_json := history.map jsonOfMsg
  if fail then (db, none)
  else (upsertRow db ⟨username, chat_name, history_json⟩, none)

/-- Model of `ConversationManager.get_available_chats`: the chat names of the rows
matching the username ( `[]` when the store raises; the `updated_at`
ordering affects only presentation order and is modelled as store order). -/
def get_available_chats (fail : Bool) (db : ChatDB) (username : String) :
    List String :=
  if fail then []
  else (db.filter (fun r => r.username == username)).map (fun r => r.chat_name)

/-- The existence check used by `create_new_chat` and `rename_chat`:
select rows matching `(username, name)` and test `response.data` nonempty. -/
def chatExists (db : ChatDB) (username name : String) : Bool :=
  db.any (matchesChat username name)

/-- Model of `ConversationManager.rename_chat`: `False` when the new name is empty or
unchanged; `False` when a row `(username, new_name)` already exists or the
store raises (caught); otherwise update `chat_name` on every row matching
`(username, old_name)` and return `True`. -/
def rename_chat (fail : Bool) (db : ChatDB) (username old_name new_name : String) :
    ChatDB × Bool :=
  if new_name == "" || new_name == old_name then (db, false)
  else if fail then (db, false)
  else if chatExists db username new_name then (db, false)
  else
    (db.map (fun r =>
      if matchesChat username old_name r then { r with chat_name := new_name } else r),
     true)

/-- Model of `ConversationManager.delete_chat`: delete the rows matching
`(username, chat_name)`; exceptions are caught (table unchanged, no signal). -/
def delete_chat (fail : Bool) (db : ChatDB) (username chat_name : String) : ChatDB :=
  if fail then db
  else db.filter (fun r => !(matchesChat username chat_name r))

/-- Model of `ConversationManager.create_new_chat`: `False` when a row
`(username, chat_name)` already exists or the store raises (caught);
otherwise insert a row with an empty `messages` array and return `True`. -/
def create_new_chat (fail : Bool) (db : ChatDB) (username chat_name : String) :
    ChatDB × Bool :=
  if fail then (db, false)
  else if chatExists db username chat_name then (db, false)
  else (db ++ [⟨username, chat_name, []⟩], true)

/-- Chat count for a user, as the length of the listed chats. -/
def chatCount (db : ChatDB) (username : String) : Nat :=
  (get_available_chats false db username).length

example :
    load_history false [⟨"u", "c", [⟨"human", "hi"⟩, ⟨"ai", "yo"⟩]⟩] "u" "c"
      = [Message.human "hi", Message.ai "yo"] := by decide

example :
    (save_history false [] "u" "c" [Message.human "hi"]).1
      = [⟨"u", "c", [⟨"human", "hi"⟩]⟩] := by decide

/-- Round trip of one message through the JSON encoding. -/
theorem msgOfJson_jsonOfMsg (m : Message) : msgOfJson (jsonOfMsg m) = m := by
  cases m <;> simp [msgOfJson, jsonOfMsg]

/-- When some row matches, replacing every matching row makes the first
filtered row the replacement. -/
theorem filter_map_replace (p : ChatRow → Bool) (row : ChatRow)
    (hrow : p row = true) (l : List ChatRow) (hl : l.any p = true) :
    ∃ t, (l.map (fun r => if p r then row else r)).filter p = row :: t := by
  induction l with
  | nil => simp at hl
  | cons x xs ih =>
    by_cases hx : p x = true
    · exact ⟨(xs.map (fun r => if p r then row else r)).filter p,
        by simp [hx, hrow]⟩
    · simp only [Bool.not_eq_true] at hx
      simp only [List.any_cons, hx, Bool.false_or] at hl
      obtain ⟨t, ht⟩ := ih hl
      exact ⟨t, by simp [hx, ht]⟩

/-- When no row matches, the filter is empty. -/
theorem filter_eq_nil_of_not_any (p : ChatRow → Bool) (l : List ChatRow)
    (hl : l.any p = false) : l.filter p = [] := by
  induction l with
  | nil => rfl
  | cons x xs ih =>
    simp only [List.any_cons, Bool.or_eq_false_iff] at hl
    simp [hl.1, ih hl.2]

/-- After an upsert, the first row matching the upserted key is the upserted
row. -/
theorem filter_upsertRow (db : ChatDB) (row : ChatRow) :
    ∃ t, (upsertRow db row).filter (matchesChat row.username row.chat_name)
      = row :: t := by
  unfold upsertRow
  by_cases h : db.any (matchesChat row.username row.chat_name) = true
  · simp only [h, if_true]
    exact filter_map_replace _ row (by simp [matchesChat]) db h
  · simp only [Bool.not_eq_true] at h
    simp only [h, Bool.false_eq_true, if_false]
    refine ⟨[], ?_⟩
    rw [List.filter_append, filter_eq_nil_of_not_any _ db h]
    simp [matchesChat]

/-- Rows that fail a predicate everywhere filter to the empty list, stated
via the `any` existence check. -/
theorem matches_false_of_not_exists (db : ChatDB) (u c : String)
    (h : chatExists db u c = false) :
    ∀ r ∈ db, matchesChat u c r = false := by
  intro r hr
  by_contra hne
  simp only [Bool.not_eq_false] at hne
  have : db.any (matchesChat u c) = true := List.any_eq_true.mpr ⟨r, hr, hne⟩
  rw [chatExists] at h
  rw [h] at this
  exact Bool.false_ne_true this

/-- The row inserted by save or create matches its own key. -/
theorem matchesChat_self (u c : String) (ms : List MsgJson) :
    matchesChat u c ⟨u, c, ms⟩ = true := by
  simp [matchesChat]

/-- Saving then loading the same key decodes the freshly upserted row. -/
theorem load_history_save_history (db : ChatDB) (u c : String)
    (msgs : List Message) :
    load_history false (save_history false db u c msgs).1 u c = msgs := by
  unfold save_history load_history
  simp only [Bool.false_eq_true, if_false]
  obtain ⟨t, ht⟩ := filter_upsertRow db ⟨u, c, msgs.map jsonOfMsg⟩
  simp only at ht
  rw [ht]
  simp [List.map_map, Function.comp_def, msgOfJson_jsonOfMsg]

/-- C4: for every owner `u`, chat name `c` and message sequence `msgs`,
`save_history` followed by `load_history` on a working store returns `msgs`
exactly — same length, same order, each message's role (human vs assistant)
and content preserved through the JSON round trip. -/
theorem c4_save_load_roundtrip (db : ChatDB) (u c : String)
    (msgs : List Message) :
    load_history false (save_history false db u c msgs).1 u c = msgs :=
  load_history_save_history db u c msgs

/-- C5: `create_new_chat` returns `false` on an existing `(owner, name)` key
and leaves the table unchanged; on a fresh key it inserts a row with an
empty message sequence and returns `true`, so a second identical create
returns `false` and the owner's chat count increases by exactly one. -/
theorem c5_create_semantics (db : ChatDB) (u c : String)
    (hex : chatExists db u c = false) :
    (∀ db2, chatExists db2 u c = true → create_new_chat false db2 u c = (db2, false))
    ∧ create_new_chat false db u c = (db ++ [⟨u, c, []⟩], true)
    ∧ (create_new_chat false (create_new_chat false db u c).1 u c).2 = false
    ∧ chatCount (create_new_chat false db u c).1 u = chatCount db u + 1 := by
  have hfresh : create_new_chat false db u c = (db ++ [⟨u, c, []⟩], true) := by
    simp [create_new_chat, hex]
  refine ⟨fun db2 h2 => by simp [create_new_chat, h2], hfresh, ?_, ?_⟩
  · rw [hfresh]
    have : chatExists (db ++ [⟨u, c, []⟩]) u c = true := by
      unfold chatExists
      rw [List.any_append]
      simp [matchesChat]
    simp [create_new_chat, this]
  · rw [hfresh]
    unfold chatCount get_available_chats
    simp [List.filter_append]

/-- C5 witness: creating a chat in an empty table succeeds and a second
create of the same name fails. -/
theorem c5_create_semantics_witness :
    chatExists ([] : ChatDB) "u" "X" = false
    ∧ create_new_chat false ([] : ChatDB) "u" "X" = ([⟨"u", "X", []⟩], true)
    ∧ (create_new_chat false (create_new_chat false ([] : ChatDB) "u" "X").1 "u" "X").2
        = false :=
  ⟨by decide,
   (c5_create_semantics [] "u" "X" (by decide)).2.1,
   (c5_create_semantics [] "u" "X" (by decide)).2.2.1⟩

/-- C9: deleting a chat makes a subsequent load of that key return the empty
sequence (not an error), deletion is idempotent, and deleting an absent chat
returns normally with the table unchanged. -/
theorem c9_delete_idempotent (db : ChatDB) (u c : String) :
    load_history false (delete_chat false db u c) u c = []
    ∧ delete_chat false (delete_chat false db u c) u c = delete_chat false db u c
    ∧ (chatExists db u c = false → delete_chat false db u c = db) := by
  refine ⟨?_, ?_, ?_⟩
  · unfold load_history delete_chat
    simp only [Bool.false_eq_true, if_false]
    have : (db.filter (fun r => !(matchesChat u c r))).filter (matchesChat u c)
        = [] := by
      rw [List.filter_filter]
      have : ∀ r ∈ db, ¬(matchesChat u c r && !(matchesChat u c r)) = true := by
        intro r _
        cases h : matchesChat u c r <;> simp [h]
      rw [List.filter_eq_nil_iff.mpr this]
    rw [this]
  · unfold delete_chat
    simp only [Bool.false_eq_true, if_false]
    rw [List.filter_filter]
    apply List.filter_congr
    intro r _
    cases h : matchesChat u c r <;> simp [h]
  · intro hex
    unfold delete_chat
    simp only [Bool.false_eq_true, if_false]
    have := matches_false_of_not_exists db u c hex
    apply List.filter_eq_self.mpr
    intro r hr
    simp [this r hr]

/-- C9 witness: deleting the only chat of a one-row table empties the
subsequent load, and deleting from an empty table is a no-op. -/
theorem c9_delete_idempotent_witness :
    load_history false
        (delete_chat false [⟨"u", "X", [⟨"human", "hi"⟩]⟩] "u" "X") "u" "X" = []
    ∧ (chatExists ([] : ChatDB) "u" "X" = false
        ∧ delete_chat false ([] : ChatDB) "u" "X" = []) :=
  ⟨(c9_delete_idempotent [⟨"u", "X", [⟨"human", "hi"⟩]⟩] "u" "X").1,
   by decide, (c9_delete_idempotent [] "u" "X").2.2 (by decide)⟩

/-- Renaming rewrites the rows matching the old key into rows matching the
new key (messages untouched), provided no row matched the new key before. -/
theorem rename_filter_new (u old_name new_name : String) (db : ChatDB)
    (hnone : ∀ r ∈ db, matchesChat u new_name r = false) :
    (db.map (fun r =>
        if matchesChat u old_name r then { r with chat_name := new_name } else r)).filter
        (matchesChat u new_name)
      = (db.filter (matchesChat u old_name)).map
          (fun r => { r with chat_name := new_name }) := by
  induction db with
  | nil => rfl
  | cons x xs ih =>
    have hx := hnone x (by simp)
    have ihh := ih (fun r hr => hnone r (List.mem_cons_of_mem x hr))
    by_cases hmx : matchesChat u old_name x = true
    · have husr : (x.username == u) = true := by
        simp only [matchesChat, Bool.and_eq_true] at hmx
        simp [hmx.1]
      have hren : matchesChat u new_name { x with chat_name := new_name } = true := by
        simp [matchesChat, husr]
      simp [hmx, hren, ihh]
    · simp only [Bool.not_eq_true] at hmx
      simp [hmx, hx, ihh]

/-- After the rename rewrite, no row matches the old key any more (the new
name differs from the old one). -/
theorem rename_filter_old (u old_name new_name : String)
    (hch : (new_name == old_name) = false) (db : ChatDB) :
    (db.map (fun r =>
        if matchesChat u old_name r then { r with chat_name := new_name } else r)).filter
        (matchesChat u old_name) = [] := by
  induction db with
  | nil => rfl
  | cons x xs ih =>
    by_cases hmx : matchesChat u old_name x = true
    · have hren : matchesChat u old_name { x with chat_name := new_name } = false := by
        simp [matchesChat, hch]
      simp [hmx, hren, ih]
    · simp only [Bool.not_eq_true] at hmx
      simp [hmx, ih]

/-- C6: `rename_chat` returns `false` when the new name is empty, unchanged,
or already taken for that owner; otherwise it returns `true` and rewrites
only the name field, so loading the new name yields exactly the messages
previously stored under the old name and loading the old name yields the
empty sequence. -/
theorem c6_rename_semantics (db : ChatDB) (u old_name new_name : String)
    (h1 : new_name ≠ "") (h2 : new_name ≠ old_name)
    (h3 : chatExists db u new_name = false) :
    (∀ db2 o, rename_chat false db2 u o "" = (db2, false))
    ∧ (∀ db2 n, rename_chat false db2 u n n = (db2, false))
    ∧ (∀ db2, chatExists db2 u new_name = true →
        rename_chat false db2 u old_name new_name = (db2, false))
    ∧ (rename_chat false db u old_name new_name).2 = true
    ∧ load_history false (rename_chat false db u old_name new_name).1 u new_name
        = load_history false db u old_name
    ∧ load_history false (rename_chat false db u old_name new_name).1 u old_name
        = [] := by
  have hb1 : (new_name == "") = false := beq_eq_false_iff_ne.mpr h1
  have hb2 : (new_name == old_name) = false := beq_eq_false_iff_ne.mpr h2
  have hguard : (new_name == "" || new_name == old_name) = false := by
    rw [hb1, hb2]; rfl
  have hres : rename_chat false db u old_name new_name
      = (db.map (fun r =>
          if matchesChat u old_name r then { r with chat_name := new_name } else r),
         true) := by
    unfold rename_chat
    rw [hguard]
    simp [h3]
  refine ⟨fun db2 o => by simp [rename_chat],
          fun db2 n => by simp [rename_chat],
          fun db2 hex => by unfold rename_chat; rw [hguard]; simp [hex],
          by rw [hres],
          ?_, ?_⟩
  · rw [hres]
    unfold load_history
    simp only [Bool.false_eq_true, if_false]
    rw [rename_filter_new u old_name new_name db
          (matches_false_of_not_exists db u new_name h3)]
    cases db.filter (matchesChat u old_name) with
    | nil => rfl
    | cons r t => rfl
  · rw [hres]
    unfold load_history
    simp only [Bool.false_eq_true, if_false]
    rw [rename_filter_old u old_name new_name hb2 db]

/-- C6 witness: renaming a one-row table from X to Y moves the message
history to Y and leaves X empty. -/
theorem c6_rename_semantics_witness :
    chatExists [ChatRow.mk "u" "X" [⟨"human", "hi"⟩]] "u" "Y" = false
    ∧ load_history false
        (rename_chat false [ChatRow.mk "u" "X" [⟨"human", "hi"⟩]] "u" "X" "Y").1
        "u" "Y" = [Message.human "hi"]
    ∧ load_history false
        (rename_chat false [ChatRow.mk "u" "X" [⟨"human", "hi"⟩]] "u" "X" "Y").1
        "u" "X" = [] := by
  refine ⟨by decide, ?_, ?_⟩
  · rw [(c6_rename_semantics [ChatRow.mk "u" "X" [⟨"human", "hi"⟩]] "u" "X" "Y"
      (by decide) (by decide) (by decide)).2.2.2.2.1]
    decide
  · exact (c6_rename_semantics [ChatRow.mk "u" "X" [⟨"human", "hi"⟩]] "u" "X" "Y"
      (by decide) (by decide) (by decide)).2.2.2.2.2

/-- C10: when neither `(owner, old)` nor `(owner, new)` exists, `new` is
non-empty and differs from `old`, `rename_chat` still returns `true` while
changing nothing — the underlying update matched zero rows — so a `true`
result does not imply a chat was renamed or exists. -/
theorem c10_rename_ghost_true (db : ChatDB) (u old_name new_name : String)
    (hold : chatExists db u old_name = false)
    (hnew : chatExists db u new_name = false)
    (hne : new_name ≠ "") (hch : new_name ≠ old_name) :
    rename_chat false db u old_name new_name = (db, true) := by
  unfold rename_chat
  have h1 : (new_name == "" || new_name == old_name) = false := by
    simp [hne, hch]
  rw [h1]
  simp only [Bool.false_eq_true, if_false, hnew, if_false]
  have hmap : db.map (fun r =>
      if matchesChat u old_name r then { r with chat_name := new_name } else r)
      = db := by
    have := matches_false_of_not_exists db u old_name hold
    calc db.map (fun r =>
          if matchesChat u old_name r then { r with chat_name := new_name } else r)
        = db.map id := List.map_congr_left (fun r hr => by simp [this r hr])
      _ = db := List.map_id db
  rw [hmap]

/-- C10 witness: renaming a chat that does not exist, in a table holding an
unrelated chat, reports success. -/
theorem c10_rename_ghost_true_witness :
    chatExists [ChatRow.mk "u" "Other" []] "u" "X" = false
    ∧ rename_chat false [ChatRow.mk "u" "Other" []] "u" "X" "Y"
        = ([ChatRow.mk "u" "Other" []], true) :=
  ⟨by decide,
   c10_rename_ghost_true [ChatRow.mk "u" "Other" []] "u" "X" "Y"
     (by decide) (by decide) (by decide) (by decide)⟩

/-- The metadata object carried by a document chunk; the fields the
components read and write (`username` injected by `add_documents`, `source`
set by the langchain loaders to the originating file path). -/
structure Metadata where
  username : Option String := none
  source : Option String := none
deriving DecidableEq, Repr

/-- A langchain `Document`: chunk text plus metadata.  The same shape is
what a row of the `documents` table holds (its embedding vector is opaque to
every property here and is not modelled). -/
structure Document where
  page_content : String
  metadata : Metadata
deriving DecidableEq, Repr

/-- The `documents` table contents. -/
abbrev DocDB := List Document

/-- Insertion into a list sorted by descending score. -/
def insertDesc {α : Type} (score : α → Nat) (a : α) : List α → List α
  | [] => [a]
  | b :: bs => if score b < score a then a :: b :: bs else b :: insertDesc score a bs

/-- Insertion sort by descending score. -/
def sortDesc {α : Type} (score : α → Nat) : List α → List α
  | [] => []
  | b :: bs => insertDesc score b (sortDesc score bs)

/-- Insertion into an ascending ≤-sorted list of strings. -/
def insertAsc (a : String) : List String → List String
  | [] => [a]
  | b :: bs => if a ≤ b then a :: b :: bs else b :: insertAsc a bs

/-- Insertion sort of strings, ascending (Python `sorted`). -/
def sortAsc : List String → List String
  | [] => []
  | b :: bs => insertAsc b (sortAsc bs)

/-- Membership is preserved by descending insertion. -/
theorem mem_insertDesc {α : Type} (score : α → Nat) (a x : α) (l : List α) :
    x ∈ insertDesc score a l ↔ x = a ∨ x ∈ l := by
  induction l with
  | nil => simp [insertDesc]
  | cons b bs ih =>
    unfold insertDesc
    by_cases h : score b < score a
    · simp [h]
    · simp only [h, if_false]
      simp only [List.mem_cons, ih]
      tauto

/-- Membership is preserved by the descending sort. -/
theorem mem_sortDesc {α : Type} (score : α → Nat) (x : α) (l : List α) :
    x ∈ sortDesc score l ↔ x ∈ l := by
  induction l with
  | nil => simp [sortDesc]
  | cons b bs ih =>
    unfold sortDesc
    rw [mem_insertDesc, ih]
    simp

/-- Membership is preserved by ascending insertion. -/
theorem mem_insertAsc (a x : String) (l : List String) :
    x ∈ insertAsc a l ↔ x = a ∨ x ∈ l := by
  induction l with
  | nil => simp [insertAsc]
  | cons b bs ih =>
    unfold insertAsc
    by_cases h : a ≤ b
    · simp [h]
    · simp only [h, if_false]
      simp only [List.mem_cons, ih]
      tauto

/-- Membership is preserved by the ascending sort. -/
theorem mem_sortAsc (x : String) (l : List String) :
    x ∈ sortAsc l ↔ x ∈ l := by
  induction l with
  | nil => simp [sortAsc]
  | cons b bs ih =>
    unfold sortAsc
    rw [mem_insertAsc, ih]
    simp

/-- The username stamp of `VectorStoreManager.add_documents`:
`split.metadata['username'] = self.username` (a `None` metadata is first
replaced by an empty mapping, so the structure default covers it). -/
def stampUsername (username : String) (d : Document) : Document :=
  { d with metadata := { d.metadata with username := some username } }

/-- Model of `VectorStoreManager.add_documents`: return immediately on an empty
input; otherwise split the documents (the
`RecursiveCharacterTextSplitter` collaborator, passed as the `splitter`
parameter), stamp every chunk's metadata with the acting username, and
persist the chunks.  There is no `try/except` here: a store failure
propagates to the caller as an exception (`Except.error`). -/
def add_documents (splitter : List Document → List Document) (fail : Bool)
    (db : DocDB) (username : String) (docs : List Document) :
    Except String DocDB :=
  if docs.isEmpty then .ok db
  else
    let splits := (splitter docs).map (stampUsername username)
    if fail then .error "vector store write failed"
    else .ok (db ++ splits)

/-- Splitting a character list on a separator character (the pieces between
separators, in order; used to model Python path handling on the character
level so terms reduce in the kernel). -/
def splitOnChar (sep : Char) : List Char → List (List Char)
  | [] => [[]]
  | c :: cs =>
    let r := splitOnChar sep cs
    if c == sep then [] :: r
    else
      match r with
      | [] => [[c]]
      | h :: t => (c :: h) :: t

/-- Python `os.path.basename`: the part of the path after the last slash. -/
def basename (s : String) : String :=
  String.mk (((splitOnChar '/' s.data).getLast?).getD s.data)

/-- Model of `VectorStoreManager.get_document_sources`: select the rows whose
metadata contains the username (`.contains` filter), re-check the username
in Python, collect the basenames of truthy `source` values into a set and
return them sorted; `[]` when the store raises (caught). -/
def get_document_sources (fail : Bool) (db : DocDB) (username : String) :
    List String :=
  if fail then []
  else
    let response := db.filter (fun r => r.metadata.username == some username)
    let sources := response.filterMap (fun r =>
      if r.metadata.username == some username then
        match r.metadata.source with
        | some src => if src == "" then none else some (basename src)
        | none => none
      else none)
    sortAsc sources.dedup

/-- Modelled from the spec: the similarity retrieval of
`langchain_community.vectorstores.SupabaseVectorStore` (invoked from
`app.py` through `as_retriever` / the `match_documents` query; the library
itself is not part of this repository) — "embeds `query`, performs a
nearest-neighbor similarity search restricted to rows whose metadata
identifies `owner`, returns up to `k` chunks ordered by descending
similarity".  The opaque embedding collaborator and the vector similarity
are abstracted into the `score` parameter. -/
def similarity_search (score : Document → Nat) (db : DocDB)
    (filter_username : String) (k : Nat) : List Document :=
  (sortDesc score (db.filter (fun r => r.metadata.username == some filter_username))).take k

/-- The retriever configuration built in `RAGAgentUI._render_chat_interface`:
`search_kwargs = {'filter': {'username': st.session_state.username}, 'k': 5}`. -/
structure Retriever where
  filter_username : String
  k : Nat
deriving DecidableEq, Repr

/-- Model of `vector_store.as_retriever(...)` as called in `app.py`: filter on the
session username, `k = 5`. -/
def chat_retriever (username : String) : Retriever := ⟨username, 5⟩

/-- Retriever invocation: the similarity search with the retriever's filter
and `k`; `score query` is the opaque query-dependent similarity. -/
def retrieve (score : String → Document → Nat) (db : DocDB) (r : Retriever)
    (query : String) : List Document :=
  similarity_search (score query) db r.filter_username r.k

/-- Every chunk returned by the similarity search carries the filtered
username in its metadata. -/
theorem mem_similarity_search_owner (score : Document → Nat) (db : DocDB)
    (u : String) (k : Nat) (c : Document)
    (hc : c ∈ similarity_search score db u k) :
    c.metadata.username = some u := by
  have h1 : c ∈ sortDesc score
      (db.filter (fun r => r.metadata.username == some u)) :=
    List.take_subset _ _ hc
  have h2 : c ∈ db.filter (fun r => r.metadata.username == some u) :=
    (mem_sortDesc score c _).mp h1
  have h3 := (List.mem_filter.mp h2).2
  simpa using h3

/-- C1: for distinct users `u1 ≠ u2`, the similarity retrieval filtered on
`u1` returns only chunks whose metadata names `u1` (hence never `u2`), and
the source listing for `u1` only reports filenames arising from chunks
owned by `u1` — even when another user has a chunk with the identical
source filename. -/
theorem c1_user_isolation (score : Document → Nat) (db : DocDB)
    (u1 u2 : String) (k : Nat) (hne : u1 ≠ u2) :
    (∀ c ∈ similarity_search score db u1 k,
        c.metadata.username = some u1 ∧ c.metadata.username ≠ some u2)
    ∧ (∀ s ∈ get_document_sources false db u1,
        ∃ r ∈ db, r.metadata.username = some u1 ∧ r.metadata.username ≠ some u2
          ∧ ∃ src, r.metadata.source = some src ∧ basename src = s) := by
  constructor
  · intro c hc
    have h4 := mem_similarity_search_owner score db u1 k c hc
    refine ⟨h4, ?_⟩
    rw [h4]
    intro hcon
    exact hne (Option.some.inj hcon)
  · intro s hs
    unfold get_document_sources at hs
    simp only [Bool.false_eq_true, if_false] at hs
    rw [mem_sortAsc, List.mem_dedup] at hs
    obtain ⟨r, hr, hfr⟩ := List.mem_filterMap.mp hs
    have hrdb : r ∈ db := (List.mem_filter.mp hr).1
    have hru : r.metadata.username = some u1 := by
      have := (List.mem_filter.mp hr).2
      simpa using this
    refine ⟨r, hrdb, hru, ?_, ?_⟩
    · rw [hru]
      intro hcon
      exact hne (Option.some.inj hcon)
    · simp only [hru, beq_self_eq_true, if_true] at hfr
      cases hsrc : r.metadata.source with
      | none => rw [hsrc] at hfr; exact absurd hfr (by simp)
      | some src =>
        rw [hsrc] at hfr
        have hfr2 : (if (src == "") = true then none else some (basename src))
            = some s := hfr
        by_cases he : (src == "") = true
        · rw [if_pos he] at hfr2
          exact absurd hfr2 (by simp)
        · rw [if_neg he] at hfr2
          exact ⟨src, rfl, Option.some.inj hfr2⟩

/-- C1 witness: with one chunk per user, both from a file named
`notes.txt`, retrieval and source listing for `alice` never surface the
`bob`-owned chunk. -/
theorem c1_user_isolation_witness :
    ("alice" : String) ≠ "bob"
    ∧ (∀ c ∈ similarity_search (fun _ => 0)
          [Document.mk "alice chunk" ⟨some "alice", some "docs/notes.txt"⟩,
           Document.mk "bob chunk" ⟨some "bob", some "notes.txt"⟩] "alice" 5,
        c.metadata.username = some "alice" ∧ c.metadata.username ≠ some "bob")
    ∧ (∀ s ∈ get_document_sources false
          [Document.mk "alice chunk" ⟨some "alice", some "docs/notes.txt"⟩,
           Document.mk "bob chunk" ⟨some "bob", some "notes.txt"⟩] "alice",
        ∃ r ∈ [Document.mk "alice chunk" ⟨some "alice", some "docs/notes.txt"⟩,
               Document.mk "bob chunk" ⟨some "bob", some "notes.txt"⟩],
          r.metadata.username = some "alice" ∧ r.metadata.username ≠ some "bob"
          ∧ ∃ src, r.metadata.source = some src ∧ basename src = s) :=
  ⟨by decide,
   (c1_user_isolation (fun _ => 0)
     [Document.mk "alice chunk" ⟨some "alice", some "docs/notes.txt"⟩,
      Document.mk "bob chunk" ⟨some "bob", some "notes.txt"⟩]
     "alice" "bob" 5 (by decide)).1,
   (c1_user_isolation (fun _ => 0)
     [Document.mk "alice chunk" ⟨some "alice", some "docs/notes.txt"⟩,
      Document.mk "bob chunk" ⟨some "bob", some "notes.txt"⟩]
     "alice" "bob" 5 (by decide)).2⟩

/-- C2: `add_documents` is a no-op on empty input (nothing persisted, no
store contact, normal return), and on non-empty input every chunk persisted
by the call carries the acting username in its metadata — the stamp is
applied to every split before the store write. -/
theorem c2_add_documents_stamps_owner (splitter : List Document → List Document)
    (db : DocDB) (u : String) (docs : List Document) :
    (∀ fail, add_documents splitter fail db u [] = Except.ok db)
    ∧ (∀ db2, add_documents splitter false db u docs = Except.ok db2 →
        ∀ r ∈ db2, r ∈ db ∨ r.metadata.username = some u) := by
  constructor
  · intro fail
    simp [add_documents]
  · intro db2 hok r hr
    unfold add_documents at hok
    by_cases hd : docs.isEmpty = true
    · rw [if_pos hd] at hok
      have : db = db2 := Except.ok.inj hok
      subst this
      exact Or.inl hr
    · rw [if_neg hd] at hok
      simp only [Bool.false_eq_true, if_false] at hok
      have hdb2 : db ++ (splitter docs).map (stampUsername u) = db2 :=
        Except.ok.inj hok
      rw [← hdb2] at hr
      rcases List.mem_append.mp hr with hin | hin
      · exact Or.inl hin
      · obtain ⟨d, _, hstamp⟩ := List.mem_map.mp hin
        right
        rw [← hstamp]
        rfl

/-- C2 witness: adding one document with no metadata persists chunks all
stamped with the acting username. -/
theorem c2_add_documents_stamps_owner_witness :
    add_documents (fun l => l) true ([] : DocDB) "alice" [] = Except.ok []
    ∧ (∀ r ∈ [Document.mk "hello" ⟨some "alice", none⟩],
        r ∈ ([] : DocDB) ∨ r.metadata.username = some "alice") :=
  ⟨(c2_add_documents_stamps_owner (fun l => l) [] "alice"
      [Document.mk "hello" ⟨none, none⟩]).1 true,
   (c2_add_documents_stamps_owner (fun l => l) [] "alice"
      [Document.mk "hello" ⟨none, none⟩]).2
     [Document.mk "hello" ⟨some "alice", none⟩] (by rfl)⟩

/-- C3 counterexample: `save_history` on a failing store returns exactly the
same caller-visible outcome as on a succeeding store (`none` — returned
normally, no exception propagated, no status value) while the write is
dropped, so the save failure is silently swallowed, contradicting the claim
that every write failure is surfaced as an explicit signal. -/
theorem c3_save_failure_silent :
    (save_history true [] "u" "c" [Message.human "hi"]).2 = none
    ∧ (save_history false [] "u" "c" [Message.human "hi"]).2 = none
    ∧ (save_history true [] "u" "c" [Message.human "hi"]).1 = []
    ∧ load_history false (save_history true [] "u" "c" [Message.human "hi"]).1
        "u" "c" = []
    ∧ load_history false (save_history false [] "u" "c" [Message.human "hi"]).1
        "u" "c" = [Message.human "hi"] := by decide

/-- C3 (amended): `add_documents` surfaces a store failure by propagating
the exception and `create_new_chat` surfaces it as a `false` return, but
`save_history` swallows the failure — identical caller-visible outcome on
success and on failure, table unchanged. -/
theorem c3_write_failure_signals (splitter : List Document → List Document)
    (db : DocDB) (cdb : ChatDB) (u c : String) (h : List Message)
    (docs : List Document) (hne : docs ≠ []) :
    add_documents splitter true db u docs
        = Except.error "vector store write failed"
    ∧ create_new_chat true cdb u c = (cdb, false)
    ∧ (save_history true cdb u c h).2 = (save_history false cdb u c h).2
    ∧ (save_history true cdb u c h).1 = cdb := by
  refine ⟨?_, by simp [create_new_chat], by simp [save_history],
    by simp [save_history]⟩
  have hd : docs.isEmpty = false := by
    cases docs with
    | nil => exact absurd rfl hne
    | cons d ds => rfl
  unfold add_documents
  rw [hd]
  rfl

/-- C3 (amended) witness: one-document add against a failing store errors,
create against a failing store reports `false`. -/
theorem c3_write_failure_signals_witness :
    ([Document.mk "hello" ⟨none, none⟩] : List Document) ≠ []
    ∧ add_documents (fun l => l) true ([] : DocDB) "u"
        [Document.mk "hello" ⟨none, none⟩]
        = Except.error "vector store write failed"
    ∧ create_new_chat true ([] : ChatDB) "u" "c" = ([], false) :=
  ⟨by decide,
   (c3_write_failure_signals (fun l => l) [] [] "u" "c" []
      [Document.mk "hello" ⟨none, none⟩] (by decide)).1,
   (c3_write_failure_signals (fun l => l) [] [] "u" "c" []
      [Document.mk "hello" ⟨none, none⟩] (by decide)).2.1⟩

/-- An uploaded file as handed to `DocumentProcessor.process_uploaded_files`:
a name and byte content. -/
structure UploadedFile where
  name : String
  content : String
deriving DecidableEq, Repr

/-- Python `pathlib.Path(...).suffix`: the final dot-suffix of the last path
component, empty when there is no dot or only a trailing dot. -/
def pathSuffix (path : String) : String :=
  let base := basename path
  match splitOnChar '.' base.data with
  | [] => ""
  | [_] => ""
  | parts =>
      let ext := (parts.getLast?).getD []
      if ext.isEmpty then "" else String.mk ('.' :: ext)

/-- Python `str.lower()` — character-wise lowercasing. -/
def strLower (s : String) : String :=
  String.mk (s.data.map Char.toLower)

/-- The extension computed in `process_uploaded_files`:
`Path(f"./temp_{file.name}").suffix.lower()`. -/
def file_extension (f : UploadedFile) : String :=
  strLower (pathSuffix ("./temp_" ++ f.name))

/-- The loader-dispatch condition of `process_uploaded_files`: one of the
three `if/elif` branches selecting `PyPDFLoader`, `TextLoader` or
`Docx2txtLoader` applies. -/
def supportedFile (f : UploadedFile) : Bool :=
  file_extension f == ".pdf" || file_extension f == ".txt"
    || file_extension f == ".docx"

/-- Model of `DocumentProcessor.process_uploaded_files`: write each file to a temp
path, dispatch on the extension (unsupported extensions are printed and
skipped with `continue`), and extend the accumulated documents with the
selected loader's output.  The loader family is the opaque extraction
collaborator `extract_text`, receiving the extension and the file.  Neither
the temp-file write nor `loader.load()` is wrapped in a `try/except`, so a
failure there propagates out of the loop and aborts the whole batch. -/
def process_uploaded_files
    (extract_text : String → UploadedFile → Except String (List Document)) :
    List UploadedFile → Except String (List Document)
  | [] => .ok []
  | f :: rest =>
    if supportedFile f then
      match extract_text (file_extension f) f with
      | .error e => .error e
      | .ok ds =>
        match process_uploaded_files extract_text rest with
        | .error e => .error e
        | .ok more => .ok (ds ++ more)
    else
      process_uploaded_files extract_text rest

example : file_extension ⟨"report.PDF", ""⟩ = ".pdf" := by decide
example : supportedFile ⟨"data.csv", ""⟩ = false := by decide
example : supportedFile ⟨"notes.txt", ""⟩ = true := by decide

/-- C7 counterexample: one failing `.txt` file aborts the whole batch — the
following `.txt` file's documents are lost and an error is propagated,
where the claim requires the failure not to abort the batch and the result
to be the successfully processed files' documents. -/
theorem c7_extraction_failure_aborts_batch :
    process_uploaded_files
        (fun _ f => if f.name == "bad.txt" then Except.error "disk full"
          else Except.ok [Document.mk "good text" ⟨none, some f.name⟩])
        [UploadedFile.mk "bad.txt" "x", UploadedFile.mk "good.txt" "y"]
      = Except.error "disk full"
    ∧ process_uploaded_files
        (fun _ f => if f.name == "bad.txt" then Except.error "disk full"
          else Except.ok [Document.mk "good text" ⟨none, some f.name⟩])
        [UploadedFile.mk "bad.txt" "x", UploadedFile.mk "good.txt" "y"]
      ≠ Except.ok [Document.mk "good text" ⟨none, some "good.txt"⟩] := by
  constructor
  · rfl
  · intro hcon
    exact absurd ((show process_uploaded_files
        (fun _ f => if f.name == "bad.txt" then Except.error "disk full"
          else Except.ok [Document.mk "good text" ⟨none, some f.name⟩])
        [UploadedFile.mk "bad.txt" "x", UploadedFile.mk "good.txt" "y"]
      = Except.error "disk full" from rfl) ▸ hcon) (by simp)

/-- C7 (amended): unsupported extensions are skipped without error and
without aborting the batch, and — provided every supported file extracts
successfully — the result is exactly the concatenation, in input order, of
the successfully processed files' documents; a per-file extraction or I/O
failure, however, aborts the batch (see the counterexample). -/
theorem c7_skip_unsupported
    (extract_text : String → UploadedFile → Except String (List Document))
    (g : UploadedFile → List Document) (files : List UploadedFile)
    (hok : ∀ f ∈ files, supportedFile f = true →
      extract_text (file_extension f) f = Except.ok (g f)) :
    process_uploaded_files extract_text files
      = Except.ok (((files.filter supportedFile).map g).flatten) := by
  induction files with
  | nil => rfl
  | cons f rest ih =>
    have ihh := ih (fun x hx hs => hok x (List.mem_cons_of_mem f hx) hs)
    unfold process_uploaded_files
    by_cases hs : supportedFile f = true
    · rw [if_pos hs, hok f (List.mem_cons_self f rest) hs, ihh]
      simp [List.filter_cons, hs]
    · rw [if_neg hs, ihh]
      simp only [Bool.not_eq_true] at hs
      simp [List.filter_cons, hs]

/-- C7 (amended) witness: a batch of one `.csv` and one `.txt` file yields
exactly the one document of the `.txt` file, with the `.csv` silently
skipped. -/
theorem c7_skip_unsupported_witness :
    process_uploaded_files
        (fun _ f => Except.ok [Document.mk f.name ⟨none, none⟩])
        [UploadedFile.mk "a.csv" "x", UploadedFile.mk "b.txt" "y"]
      = Except.ok [Document.mk "b.txt" ⟨none, none⟩] := by
  rw [c7_skip_unsupported
    (fun _ f => Except.ok [Document.mk f.name ⟨none, none⟩])
    (fun f => [Document.mk f.name ⟨none, none⟩])
    [UploadedFile.mk "a.csv" "x", UploadedFile.mk "b.txt" "y"]
    (fun f _ _ => rfl)]
  rfl

/-- Modelled from the spec: `LLMHandler.get_conversational_rag_chain`
(`components/llm_handler.py`, imported by `app.py` but missing from the
repository snapshot) — the conversational RAG chain retrieves chunks for
the input question through the given retriever, builds a grounding context
from the retrieved chunk texts, invokes the language-model collaborator
`generate(context, history, question)`, and returns its answer.  Chunk
texts are concatenated into the grounding context. -/
def buildContext (chunks : List Document) : String :=
  String.intercalate "\n\n" (chunks.map (fun c => c.page_content))

/-- Modelled from the spec (continuation of the chain model): one chain
invocation with `{"input": question, "chat_history": history}`. -/
def rag_chain_invoke (generate : String → List Message → String → String)
    (score : String → Document → Nat) (db : DocDB) (retriever : Retriever)
    (question : String) (chat_history : List Message) : String :=
  generate (buildContext (retrieve score db retriever question))
    chat_history question

/-- The chat-input handling of `RAGAgentUI._render_chat_interface`: append
the user's question to the session messages, build the retriever with the
per-user filter and `k = 5`, invoke the chain with
`chat_history = st.session_state.messages[:-1]` (excluding the question
just appended), then append the answer; returns the answer and the new
message list (which `save_history` then persists). -/
def handle_chat_input (generate : String → List Message → String → String)
    (score : String → Document → Nat) (db : DocDB)
    (username question : String) (messages : List Message) :
    String × List Message :=
  let msgs := messages ++ [Message.human question]
  let ans := rag_chain_invoke generate score db (chat_retriever username)
    question msgs.dropLast
  (ans, msgs ++ [Message.ai ans])

/-- C8: the answer operation searches the knowledge store with the question
scoped to the acting user with `k = 5`, builds the grounding context from
the retrieved chunks (all of which are owned by that user), invokes the
language model with that context, the history excluding the current
question, and the question; when retrieval returns zero chunks the model is
still invoked with the empty context and its answer is returned, not an
error. -/
theorem c8_answer_pipeline (generate : String → List Message → String → String)
    (score : String → Document → Nat) (db : DocDB)
    (username question : String) (messages : List Message) :
    (handle_chat_input generate score db username question messages).1
      = generate (buildContext (similarity_search (score question) db username 5))
          messages question
    ∧ (similarity_search (score question) db username 5 = [] →
        (handle_chat_input generate score db username question messages).1
          = generate "" messages question)
    ∧ (∀ c ∈ similarity_search (score question) db username 5,
        c.metadata.username = some username) := by
  have hdrop : (messages ++ [Message.human question]).dropLast = messages := by
    simp
  have hmain : (handle_chat_input generate score db username question messages).1
      = generate (buildContext (similarity_search (score question) db username 5))
          messages question := by
    rw [show (handle_chat_input generate score db username question messages).1
        = generate
            (buildContext (similarity_search (score question) db username 5))
            ((messages ++ [Message.human question]).dropLast) question from rfl,
      hdrop]
  refine ⟨hmain, ?_, ?_⟩
  · intro hzero
    rw [hmain, hzero]
    rfl
  · intro c hc
    exact mem_similarity_search_owner (score question) db username 5 c hc

/-- C8 witness: with an empty knowledge store the retrieval is empty and the
returned answer is the model's output on the empty context. -/
theorem c8_answer_pipeline_witness :
    similarity_search ((fun (_ : String) (_ : Document) => 0) "what is X?")
        ([] : DocDB) "u" 5 = []
    ∧ (handle_chat_input (fun _ _ _ => "an ungrounded answer")
        (fun _ _ => 0) ([] : DocDB) "u" "what is X?" []).1
      = "an ungrounded answer" :=
  ⟨rfl,
   (c8_answer_pipeline (fun _ _ _ => "an ungrounded answer") (fun _ _ => 0)
     ([] : DocDB) "u" "what is X?" []).2.1 rfl⟩

end Rag
